import Mathlib

/-!
Verification development for the log-file analyzer
(`log_analyzer.py`: `LogEntry`, `LogParser`, `LogAnalyzer`).

The Python code is shallowly embedded: the two regular-expression
grammars (`COMMON_LOG_PATTERN`, `COMBINED_LOG_PATTERN`) are compiled to
token lists interpreted by a backtracking matcher `reMF` with Python
`re.match` semantics (anchored at the start of the line only, greedy
`+`, lazy `*?`, `.` = any character except newline, `\d` modelled as the
ASCII digits that all relevant inputs use); `datetime.strptime` for the
layout `%d/%b/%Y:%H:%M:%S` is embedded as `strptimeDayMonYear`
(CPython field widths and ranges, plus the `datetime` constructor's
day-of-month/leap-year validation); Python lists become `List`,
`dict`/`Counter` (insertion-ordered since Python 3.7) become
first-occurrence key lists with counts, `Counter.most_common` becomes a
stable descending insertion sort followed by `take`, and `None`/values
become `Option`.
-/

/-- Mirror of `datetime.datetime` restricted to the fields the analyzer
uses; `datetime.strptime` guarantees `1 ≤ month ≤ 12`, `hour ≤ 23`,
etc. at construction time, which theorems take as hypotheses where
needed. -/
structure DateTime where
  year : Nat
  month : Nat
  day : Nat
  hour : Nat
  minute : Nat
  second : Nat
deriving DecidableEq, Repr

/-- Python `datetime` comparison: lexicographic by
(year, month, day, hour, minute, second). -/
def DateTime.le (a b : DateTime) : Prop :=
  a.year < b.year ∨ (a.year = b.year ∧
    (a.month < b.month ∨ (a.month = b.month ∧
      (a.day < b.day ∨ (a.day = b.day ∧
        (a.hour < b.hour ∨ (a.hour = b.hour ∧
          (a.minute < b.minute ∨ (a.minute = b.minute ∧
            a.second ≤ b.second)))))))))

instance : DecidablePred fun p : DateTime × DateTime => DateTime.le p.1 p.2 :=
  fun _ => by unfold DateTime.le; infer_instance

instance (a b : DateTime) : Decidable (DateTime.le a b) := by
  unfold DateTime.le; infer_instance

/-- Mirror of the Python `LogEntry` class (a record of parsed fields;
`status_code` and `response_size` come from `\d+` captures, hence `Nat`). -/
structure LogEntry where
  raw_log : String
  timestamp : DateTime
  ip_address : String
  method : String
  path : String
  status_code : Nat
  response_size : Nat
  user_agent : Option String := none
  referer : Option String := none
deriving DecidableEq, Repr

/-! ### The regular-expression engine

Only the constructs appearing in the two log-line patterns are needed:
literal characters, single-character classes, greedy `+` over a class,
lazy `*?` over a class, and (non-nested) capturing-group delimiters. -/

/-- One token of a compiled pattern. -/
inductive RTok where
  | lit (c : Char)
  | cls (p : Char → Bool)
  | plus (p : Char → Bool)
  | lazyStar (p : Char → Bool)
  | gopen
  | gclose

/-- Backtracking matcher, Python `re.match` semantics: anchored at the
start, success does not require consuming the whole input, greedy `+`
tries the longest run first, lazy `*?` tries the shortest expansion
first.  `cur` is the text of the currently open capturing group, `acc`
the completed captures in order.  The fuel argument only serves
termination: every step consumes one token, so `toks.length + 1` fuel
never runs out. -/
def reMF : Nat → List RTok → List Char → Option (List Char) → List String →
    Option (List String)
  | 0, _, _, _, _ => none
  | _ + 1, [], _, _, acc => some acc
  | fuel + 1, .lit c :: ts, s, cur, acc =>
    match s with
    | [] => none
    | x :: xs => if x = c then reMF fuel ts xs (cur.map (· ++ [x])) acc else none
  | fuel + 1, .cls p :: ts, s, cur, acc =>
    match s with
    | [] => none
    | x :: xs => if p x then reMF fuel ts xs (cur.map (· ++ [x])) acc else none
  | fuel + 1, .plus p :: ts, s, cur, acc =>
    let n := (s.takeWhile p).length
    (List.range n).findSome? fun j =>
      reMF fuel ts (s.drop (n - j)) (cur.map (· ++ s.take (n - j))) acc
  | fuel + 1, .lazyStar p :: ts, s, cur, acc =>
    let n := (s.takeWhile p).length
    (List.range (n + 1)).findSome? fun k =>
      reMF fuel ts (s.drop k) (cur.map (· ++ s.take k)) acc
  | fuel + 1, .gopen :: ts, s, _, acc => reMF fuel ts s (some []) acc
  | fuel + 1, .gclose :: ts, s, cur, acc =>
    reMF fuel ts s none (acc ++ [String.mk (cur.getD [])])

/-- `pattern.match(s)` restricted to the capture list (Python 3.7+,
`re.Match.groups()`): `some caps` on success, `none` when the pattern
does not match at the start of `s`. -/
def reMatch (toks : List RTok) (s : String) : Option (List String) :=
  reMF (toks.length + 1) toks s.data none []

/-- A run of literal tokens, one per character. -/
def litStr (s : String) : List RTok := s.data.map .lit

/-- `.` in a pattern without `re.DOTALL`: any character except a newline. -/
def dotC (c : Char) : Bool := c ≠ '\n'

/-- Compiled form of
`(\d+\.\d+\.\d+\.\d+) - - \[(.*?)\] "([A-Z]+) (.*?) HTTP/\d\.\d" (\d+) (\d+)`. -/
def COMMON_LOG_PATTERN : List RTok :=
  [.gopen, .plus Char.isDigit, .lit '.', .plus Char.isDigit, .lit '.',
   .plus Char.isDigit, .lit '.', .plus Char.isDigit, .gclose]
  ++ litStr " - - ["
  ++ [.gopen, .lazyStar dotC, .gclose]
  ++ litStr "] \""
  ++ [.gopen, .plus Char.isUpper, .gclose]
  ++ litStr " "
  ++ [.gopen, .lazyStar dotC, .gclose]
  ++ litStr " HTTP/"
  ++ [.cls Char.isDigit, .lit '.', .cls Char.isDigit]
  ++ litStr "\" "
  ++ [.gopen, .plus Char.isDigit, .gclose]
  ++ litStr " "
  ++ [.gopen, .plus Char.isDigit, .gclose]

/-- Compiled form of the combined pattern, which extends the common one
with ` "(.*?)" "(.*?)"`. -/
def COMBINED_LOG_PATTERN : List RTok :=
  COMMON_LOG_PATTERN
  ++ litStr " \""
  ++ [.gopen, .lazyStar dotC, .gclose]
  ++ litStr "\" \""
  ++ [.gopen, .lazyStar dotC, .gclose]
  ++ [.lit '"']

/-! ### Timestamp normalisation (`LogParser.parse_timestamp`) -/

/-- Numeric value of an ASCII digit. -/
def digitVal (c : Char) : Nat := c.toNat - 48

/-- CPython `strptime` numeric-field recognition: a two-digit reading
with value in `[lo2, hi2]` is preferred, else a single digit with value
at least `lo1` (`%d` excludes `0` and `00`; the others allow any single
digit).  Seconds `60`/`61` also match the `%S` layout but are then
rejected by the `datetime` constructor, so their net acceptance range
is the one passed here. -/
def read2or1 (lo2 hi2 lo1 : Nat) (s : List Char) : Option (Nat × List Char) :=
  match s with
  | d1 :: d2 :: rest =>
    if d1.isDigit ∧ d2.isDigit ∧ lo2 ≤ 10 * digitVal d1 + digitVal d2 ∧
        10 * digitVal d1 + digitVal d2 ≤ hi2 then
      some (10 * digitVal d1 + digitVal d2, rest)
    else if d1.isDigit ∧ lo1 ≤ digitVal d1 then some (digitVal d1, d2 :: rest)
    else none
  | [d1] => if d1.isDigit ∧ lo1 ≤ digitVal d1 then some (digitVal d1, []) else none
  | [] => none

/-- `%b`: the C-locale month abbreviations, case-insensitively. -/
def monthOf3 (c1 c2 c3 : Char) : Option Nat :=
  let key := String.mk [c1.toLower, c2.toLower, c3.toLower]
  if key = "jan" then some 1 else if key = "feb" then some 2
  else if key = "mar" then some 3 else if key = "apr" then some 4
  else if key = "may" then some 5 else if key = "jun" then some 6
  else if key = "jul" then some 7 else if key = "aug" then some 8
  else if key = "sep" then some 9 else if key = "oct" then some 10
  else if key = "nov" then some 11 else if key = "dec" then some 12
  else none

/-- Gregorian leap-year rule used by `datetime`. -/
def isLeapYear (y : Nat) : Bool := y % 4 = 0 && (y % 100 ≠ 0 || y % 400 = 0)

/-- Length of a month, as validated by the `datetime` constructor. -/
def daysInMonth (y m : Nat) : Nat :=
  if m = 2 then (if isLeapYear y then 29 else 28)
  else if m = 4 ∨ m = 6 ∨ m = 9 ∨ m = 11 then 30
  else 31

/-- `datetime.strptime(s, "%d/%b/%Y:%H:%M:%S")` as an `Option`: the
whole string must be consumed ("unconverted data remains" otherwise),
`%Y` is exactly four digits, and the resulting fields must form a valid
`datetime` (year at least 1, day within the month). -/
def strptimeDayMonYear (s : List Char) : Option DateTime := do
  let (day, s1) ← read2or1 1 31 1 s
  match s1 with
  | '/' :: m1 :: m2 :: m3 :: '/' :: y1 :: y2 :: y3 :: y4 :: ':' :: s2 =>
    let month ← monthOf3 m1 m2 m3
    if y1.isDigit ∧ y2.isDigit ∧ y3.isDigit ∧ y4.isDigit then
      let year := digitVal y1 * 1000 + digitVal y2 * 100 +
        digitVal y3 * 10 + digitVal y4
      let (hour, s3) ← read2or1 0 23 0 s2
      match s3 with
      | ':' :: s4 => do
        let (minute, s5) ← read2or1 0 59 0 s4
        match s5 with
        | ':' :: s6 => do
          let (second, s7) ← read2or1 0 59 0 s6
          if s7 = [] ∧ 1 ≤ year ∧ day ≤ daysInMonth year month then
            some ⟨year, month, day, hour, minute, second⟩
          else none
        | _ => none
      | _ => none
    else none
  | _ => none

/-- `LogParser.parse_timestamp`: the timezone token after the first
space is discarded (`split(' ')[0]`), then the remainder is parsed with
the fixed layout; a `ValueError` becomes `none`. -/
def parse_timestamp (timestamp_str : String) : Option DateTime :=
  strptimeDayMonYear (timestamp_str.data.takeWhile (· ≠ ' '))

/-- `int()` on a capture of `\d+` (never fails on such input). -/
def natOfDigits (s : String) : Nat :=
  s.data.foldl (fun a c => a * 10 + digitVal c) 0

/-- `LogParser.parse_log_line`: the combined pattern is tried first; on
a match the eight captures populate the entry (with `"-"` referer /
user-agent normalised to `none`); otherwise the common pattern is
tried; otherwise `none`.  A timestamp `ValueError` on whichever branch
matched also yields `none`. -/
def parse_log_line (log_line : String) : Option LogEntry :=
  match reMatch COMBINED_LOG_PATTERN log_line with
  | some [ip_address, timestamp_str, method, path, status_code, response_size,
          referer, user_agent] =>
    match parse_timestamp timestamp_str with
    | some timestamp =>
      some { raw_log := log_line, timestamp := timestamp,
             ip_address := ip_address, method := method, path := path,
             status_code := natOfDigits status_code,
             response_size := natOfDigits response_size,
             referer := if referer = "-" then none else some referer,
             user_agent := if user_agent = "-" then none else some user_agent }
    | none => none
  | _ =>
    match reMatch COMMON_LOG_PATTERN log_line with
    | some [ip_address, timestamp_str, method, path, status_code, response_size] =>
      match parse_timestamp timestamp_str with
      | some timestamp =>
        some { raw_log := log_line, timestamp := timestamp,
               ip_address := ip_address, method := method, path := path,
               status_code := natOfDigits status_code,
               response_size := natOfDigits response_size }
      | none => none
    | _ => none

/-! ### The analyzer (`LogAnalyzer`) -/

/-- Mirror of the Python `LogAnalyzer` class: it holds the record store
(`log_entries`); every operation below is a pure function of it, so the
store itself is never modified by any operation. -/
structure LogAnalyzer where
  log_entries : List LogEntry

namespace LogAnalyzer

/-- `filter_by_date_range`: list comprehension keeping entries with
`start_date <= entry.timestamp <= end_date`.  Note the source performs
no check that `start_date <= end_date`. -/
def filter_by_date_range (a : LogAnalyzer) (start_date end_date : DateTime) :
    List LogEntry :=
  a.log_entries.filter fun entry =>
    decide (DateTime.le start_date entry.timestamp ∧
      DateTime.le entry.timestamp end_date)

/-- `filter_by_ip`: entries whose `ip_address` equals the argument. -/
def filter_by_ip (a : LogAnalyzer) (ip_address : String) : List LogEntry :=
  a.log_entries.filter fun entry => entry.ip_address == ip_address

/-- `filter_by_method`: entries whose `method` equals `method.upper()`. -/
def filter_by_method (a : LogAnalyzer) (method : String) : List LogEntry :=
  a.log_entries.filter fun entry => entry.method == method.toUpper

/-- `filter_by_status_code`: entries with the given status code. -/
def filter_by_status_code (a : LogAnalyzer) (status_code : Nat) : List LogEntry :=
  a.log_entries.filter fun entry => entry.status_code == status_code

/-- `filter_by_status_code_range`: entries with
`start_code <= status_code <= end_code`. -/
def filter_by_status_code_range (a : LogAnalyzer) (start_code end_code : Nat) :
    List LogEntry :=
  a.log_entries.filter fun entry =>
    decide (start_code ≤ entry.status_code ∧ entry.status_code ≤ end_code)

/-- `re.search` used as a boolean: does the pattern match starting at
some position of `s`? -/
def reSearch (toks : List RTok) (s : String) : Bool :=
  (List.range (s.data.length + 1)).any fun i =>
    (reMF (toks.length + 1) toks (s.data.drop i) none []).isSome

/-- `filter_by_path_pattern`: entries whose `path` contains a match of
the (already compiled) pattern, `re.search` semantics. -/
def filter_by_path_pattern (a : LogAnalyzer) (pattern : List RTok) : List LogEntry :=
  a.log_entries.filter fun entry => reSearch pattern entry.path

end LogAnalyzer

/-! ### Insertion-ordered counters (Python 3.7+ `dict` / `Counter`) -/

/-- Key creation in an insertion-ordered dict: append at the back
unless already present. -/
def insertKey [DecidableEq α] (ks : List α) (k : α) : List α :=
  if k ∈ ks then ks else ks ++ [k]

/-- The key sequence of a dict/`Counter` built by iterating `ks`:
distinct values in first-occurrence order. -/
def orderedKeys [DecidableEq α] (ks : List α) : List α :=
  ks.foldl insertKey []

/-- `Counter(ks)` as an association list: keys in first-occurrence
order, each with its multiplicity. -/
def counterItems [DecidableEq α] (ks : List α) : List (α × Nat) :=
  (orderedKeys ks).map fun k => (k, ks.count k)

/-- The precedence used by `Counter.most_common`: `x` may precede `y`
exactly when `x`'s count is at least `y`'s; the sort being stable, ties
stay in insertion order. -/
def countGE (x y : α × Nat) : Prop := y.2 ≤ x.2

instance : @DecidableRel (α × Nat) countGE := fun x y => Nat.decLe y.2 x.2

/-- `Counter.most_common(n)` (`heapq.nlargest`, documented as
`sorted(items, reverse=True)[:n]`, a stable descending order):
stable-sort the items by count descending, keep the first `n`. -/
def mostCommon [DecidableEq α] (n : Nat) (items : List (α × Nat)) : List (α × Nat) :=
  (List.insertionSort countGE items).take n

namespace LogAnalyzer

/-- `get_top_ips`: `Counter` over the entries' IP addresses, then
`most_common(limit)`. -/
def get_top_ips (a : LogAnalyzer) (limit : Nat) : List (String × Nat) :=
  mostCommon limit (counterItems (a.log_entries.map (·.ip_address)))

/-- `get_top_paths`: `Counter` over the entries' paths, then
`most_common(limit)`. -/
def get_top_paths (a : LogAnalyzer) (limit : Nat) : List (String × Nat) :=
  mostCommon limit (counterItems (a.log_entries.map (·.path)))

/-- `get_status_code_distribution`: `dict(Counter(status codes))`. -/
def get_status_code_distribution (a : LogAnalyzer) : List (Nat × Nat) :=
  counterItems (a.log_entries.map (·.status_code))

/-- `get_method_distribution`: `dict(Counter(methods))`. -/
def get_method_distribution (a : LogAnalyzer) : List (String × Nat) :=
  counterItems (a.log_entries.map (·.method))

/-- `get_hourly_distribution`:
`{hour: hour_counter.get(hour, 0) for hour in range(24)}` where
`hour_counter` counts entries by `timestamp.hour`. -/
def get_hourly_distribution (a : LogAnalyzer) : List (Nat × Nat) :=
  (List.range 24).map fun hour =>
    (hour, a.log_entries.countP fun entry => entry.timestamp.hour == hour)

end LogAnalyzer

/-- Decimal digits of `n`, two characters with a leading zero when
needed (the month/day fields of `date.isoformat()`). -/
def pad2 (n : Nat) : String :=
  if n < 10 then "0" ++ toString n else toString n

/-- The year field of `date.isoformat()`: four digits, zero-padded. -/
def pad4 (n : Nat) : String :=
  if n < 10 then "000" ++ toString n
  else if n < 100 then "00" ++ toString n
  else if n < 1000 then "0" ++ toString n
  else toString n

/-- `entry.timestamp.date().isoformat()`: the `YYYY-MM-DD` string. -/
def DateTime.isoDate (t : DateTime) : String :=
  pad4 t.year ++ "-" ++ pad2 t.month ++ "-" ++ pad2 t.day

namespace LogAnalyzer

/-- `get_daily_distribution`: `dict(Counter(isoformat dates))` — keys
in first-occurrence order, *not* sorted (the CLI display layer sorts
separately before printing). -/
def get_daily_distribution (a : LogAnalyzer) : List (String × Nat) :=
  counterItems (a.log_entries.map fun entry => entry.timestamp.isoDate)

/-- `get_total_bandwidth`: sum of the response sizes. -/
def get_total_bandwidth (a : LogAnalyzer) : Nat :=
  (a.log_entries.map (·.response_size)).sum

/-- `get_average_response_size`: `0` on an empty store, otherwise the
mean of the response sizes (`ℚ` stands in for Python's exact `int`
division result in the cases the claims evaluate). -/
def get_average_response_size (a : LogAnalyzer) : ℚ :=
  if a.log_entries = [] then 0
  else (get_total_bandwidth a : ℚ) / (a.log_entries.length : ℚ)

end LogAnalyzer

/-! ### Anomaly detection (`detect_potential_attacks`) -/

/-- Python's `\s` class, restricted to its ASCII members. -/
def isSpaceC (c : Char) : Bool :=
  c = ' ' ∨ c = '\t' ∨ c = '\n' ∨ c = '\r' ∨ c = '\x0b' ∨ c = '\x0c'

/-- Strip a (lowercase) keyword from the head of `s`,
case-insensitively. -/
def stripCI : List Char → List Char → Option (List Char)
  | [], s => some s
  | _ :: _, [] => none
  | k :: ks, c :: cs => if c.toLower = k then stripCI ks cs else none

/-- Does the alternative `\s+kw\s+` of the SQL-injection pattern match
at the head of `s`?  Since the keywords begin with a non-space
character, the `\s+` before the keyword must be the maximal space run. -/
def spacedKeywordAt (kw : String) (s : List Char) : Bool :=
  decide ((s.takeWhile isSpaceC).length ≥ 1) &&
    (match stripCI kw.data (s.dropWhile isSpaceC) with
     | some (c :: _) => isSpaceC c
     | _ => false)

/-- Does the alternative `kw\s+` match at the head of `s`? -/
def trailKeywordAt (kw : String) (s : List Char) : Bool :=
  match stripCI kw.data s with
  | some (c :: _) => isSpaceC c
  | _ => false

/-- One start position of the SQL-injection pattern
`('|"|\s+or\s+|\s+and\s+|\s+union\s+|select\s+|drop\s+|--)` with
`re.IGNORECASE`: does some alternative match here? -/
def sqlAltAt (s : List Char) : Bool :=
  (match s with
   | '\'' :: _ => true
   | '"' :: _ => true
   | '-' :: '-' :: _ => true
   | _ => false) ||
  spacedKeywordAt "or" s || spacedKeywordAt "and" s ||
  spacedKeywordAt "union" s ||
  trailKeywordAt "select" s || trailKeywordAt "drop" s

/-- `sql_injection_pattern.search(path)` as a boolean. -/
def sql_injection_search (path : String) : Bool :=
  (List.range (path.data.length + 1)).any fun i => sqlAltAt (path.data.drop i)

/-- Does `s` contain `tok` as a contiguous substring? -/
def containsToken (tok : String) (s : String) : Bool :=
  (List.range (s.data.length + 1)).any fun i => tok.data.isPrefixOf (s.data.drop i)

/-- `path_traversal_pattern.search(path)`: the path contains `../` or
`..\`. -/
def path_traversal_search (path : String) : Bool :=
  containsToken "../" path || containsToken "..\\" path

namespace LogAnalyzer

/-- The `ip_404_counts` accumulation: a `defaultdict(int)` over the
404 entries, keyed by IP in first-occurrence order. -/
def ip_404_counts (entries : List LogEntry) : List (String × Nat) :=
  counterItems ((entries.filter fun e => e.status_code == 404).map (·.ip_address))

/-- The `excessive_404s` accumulation of `detect_potential_attacks`:
for each IP whose 404-count exceeds 10, every 404 entry of that IP. -/
def excessive404Entries (entries : List LogEntry) : List LogEntry :=
  (ip_404_counts entries).flatMap fun kv =>
    if kv.2 > 10 then
      entries.filter fun e => e.ip_address == kv.1 && e.status_code == 404
    else []

/-- `detect_potential_attacks`: a `defaultdict(list)` in which only the
categories that received at least one record appear as keys, in
first-append order (SQL injection, then path traversal, then excessive
404s). -/
def detect_potential_attacks (a : LogAnalyzer) : List (String × List LogEntry) :=
  ([("sql_injection", a.log_entries.filter fun e => sql_injection_search e.path),
    ("path_traversal", a.log_entries.filter fun e => path_traversal_search e.path),
    ("excessive_404s", excessive404Entries a.log_entries)]).filter
    fun kv => !kv.2.isEmpty

end LogAnalyzer

/-! ### General lemmas about the insertion-ordered counter -/

theorem insertKey_length_le [DecidableEq α] (ks : List α) (k : α) :
    (insertKey ks k).length ≤ ks.length + 1 := by
  unfold insertKey; split <;> simp

theorem foldl_insertKey_length_le [DecidableEq α] (ks acc : List α) :
    (ks.foldl insertKey acc).length ≤ acc.length + ks.length := by
  induction ks generalizing acc with
  | nil => simp
  | cons x xs ih =>
    calc (xs.foldl insertKey (insertKey acc x)).length
        ≤ (insertKey acc x).length + xs.length := ih _
      _ ≤ acc.length + (x :: xs).length := by
          have := insertKey_length_le acc x
          simp only [List.length_cons]; omega

theorem orderedKeys_length_le [DecidableEq α] (ks : List α) :
    (orderedKeys ks).length ≤ ks.length := by
  simpa using foldl_insertKey_length_le ks []

theorem mem_foldl_insertKey [DecidableEq α] (ks acc : List α) (k : α) :
    k ∈ ks.foldl insertKey acc ↔ k ∈ acc ∨ k ∈ ks := by
  induction ks generalizing acc with
  | nil => simp
  | cons x xs ih =>
    rw [List.foldl_cons, ih]
    unfold insertKey
    split
    · next hx =>
      simp only [List.mem_cons]
      constructor
      · rintro (h | h) <;> tauto
      · rintro (h | rfl | h) <;> tauto
    · simp only [List.mem_append, List.mem_cons, List.mem_singleton]
      tauto

theorem mem_orderedKeys [DecidableEq α] (ks : List α) (k : α) :
    k ∈ orderedKeys ks ↔ k ∈ ks := by
  unfold orderedKeys
  rw [mem_foldl_insertKey]
  simp

theorem nodup_foldl_insertKey [DecidableEq α] (ks : List α) {acc : List α}
    (h : acc.Nodup) : (ks.foldl insertKey acc).Nodup := by
  induction ks generalizing acc with
  | nil => exact h
  | cons x xs ih =>
    rw [List.foldl_cons]
    apply ih
    unfold insertKey
    split
    · exact h
    · next hx => simp [List.nodup_append, h, hx]

theorem nodup_orderedKeys [DecidableEq α] (ks : List α) :
    (orderedKeys ks).Nodup :=
  nodup_foldl_insertKey ks List.nodup_nil

theorem mem_counterItems [DecidableEq α] (ks : List α) (k : α) (c : Nat) :
    (k, c) ∈ counterItems ks ↔ k ∈ ks ∧ c = ks.count k := by
  unfold counterItems
  rw [List.mem_map]
  constructor
  · rintro ⟨k', hk', heq⟩
    obtain ⟨rfl, rfl⟩ := Prod.mk.injEq .. ▸ heq
    exact ⟨(mem_orderedKeys ks k').mp hk', rfl⟩
  · rintro ⟨hk, rfl⟩
    exact ⟨k, (mem_orderedKeys ks k).mpr hk, rfl⟩

theorem counterItems_length_le [DecidableEq α] (ks : List α) :
    (counterItems ks).length ≤ ks.length := by
  unfold counterItems
  rw [List.length_map]
  exact orderedKeys_length_le ks

theorem count_map_eq_countP [DecidableEq α] [DecidableEq β] (f : α → β)
    (l : List α) (b : β) :
    (l.map f).count b = l.countP fun x => f x == b := by
  induction l with
  | nil => rfl
  | cons x l ih => simp [List.count_cons, List.countP_cons, ih]

/-! ### Claim theorems -/

/-- C2: parsing the exact sample line
`192.168.1.1 - - [19/Apr/2023:13:55:36 +0000] "GET /index.html HTTP/1.1" 200 2326`
succeeds and yields exactly the documented record: client address
`192.168.1.1`, method `GET`, path `/index.html`, status 200, size 2326,
referer and user agent absent. -/
theorem c2_parse_sample_common_line :
    parse_log_line
        "192.168.1.1 - - [19/Apr/2023:13:55:36 +0000] \"GET /index.html HTTP/1.1\" 200 2326" =
      some { raw_log :=
               "192.168.1.1 - - [19/Apr/2023:13:55:36 +0000] \"GET /index.html HTTP/1.1\" 200 2326",
             timestamp := ⟨2023, 4, 19, 13, 55, 36⟩,
             ip_address := "192.168.1.1", method := "GET",
             path := "/index.html", status_code := 200,
             response_size := 2326, user_agent := none, referer := none } := by
  decide

/-- C7: on an empty record store, `get_total_bandwidth` is exactly 0 and
`get_average_response_size` is exactly 0 (an ordinary value, not an
error). -/
theorem c7_empty_store_totals :
    LogAnalyzer.get_total_bandwidth ⟨[]⟩ = 0 ∧
    LogAnalyzer.get_average_response_size ⟨[]⟩ = 0 := by
  exact ⟨rfl, rfl⟩

/-- C3: each of the six filter operations equals `List.filter` of its
predicate over the store, hence is pure and order-preserving — the
result is a subsequence of the source in the source's relative order,
and the source list (`a.log_entries`) is untouched. -/
theorem c3_filters_pure_order_preserving (a : LogAnalyzer) (ip m : String)
    (sc lo hi : Nat) (pat : List RTok) (sd ed : DateTime) :
    (a.filter_by_ip ip =
        a.log_entries.filter (fun e => e.ip_address == ip) ∧
      (a.filter_by_ip ip).Sublist a.log_entries) ∧
    (a.filter_by_method m =
        a.log_entries.filter (fun e => e.method == m.toUpper) ∧
      (a.filter_by_method m).Sublist a.log_entries) ∧
    (a.filter_by_status_code sc =
        a.log_entries.filter (fun e => e.status_code == sc) ∧
      (a.filter_by_status_code sc).Sublist a.log_entries) ∧
    (a.filter_by_status_code_range lo hi =
        a.log_entries.filter
          (fun e => decide (lo ≤ e.status_code ∧ e.status_code ≤ hi)) ∧
      (a.filter_by_status_code_range lo hi).Sublist a.log_entries) ∧
    (a.filter_by_path_pattern pat =
        a.log_entries.filter (fun e => LogAnalyzer.reSearch pat e.path) ∧
      (a.filter_by_path_pattern pat).Sublist a.log_entries) ∧
    (a.filter_by_date_range sd ed =
        a.log_entries.filter (fun e =>
          decide (DateTime.le sd e.timestamp ∧ DateTime.le e.timestamp ed)) ∧
      (a.filter_by_date_range sd ed).Sublist a.log_entries) :=
  ⟨⟨rfl, List.filter_sublist _⟩, ⟨rfl, List.filter_sublist _⟩,
   ⟨rfl, List.filter_sublist _⟩, ⟨rfl, List.filter_sublist _⟩,
   ⟨rfl, List.filter_sublist _⟩, ⟨rfl, List.filter_sublist _⟩⟩

/-- A concrete record (19 April 2023, GET, response size 100) used to
evaluate theorems on small concrete stores. -/
def mkE (ip p : String) (st day hr : Nat) : LogEntry :=
  { raw_log := "", timestamp := ⟨2023, 4, day, hr, 0, 0⟩, ip_address := ip,
    method := "GET", path := p, status_code := st, response_size := 100 }

/-- Modelled from the spec: "invalid date-range ordering where
start > end [is] surfaced to the caller as a typed failure; the
analysis for that one filter step is aborted".  The source code
performs no such check; this definition realises the spec's words so
they can be compared against the code's actual behaviour. -/
def specFilterByDateRange (a : LogAnalyzer) (start_date end_date : DateTime) :
    Except String (List LogEntry) :=
  if ¬ DateTime.le start_date end_date then
    .error "invalid date range: start_date > end_date"
  else
    .ok (a.filter_by_date_range start_date end_date)

/-- C8 counterexample: calling `filter_by_date_range` with start
2023-04-20 and end 2023-04-19 (start strictly greater than end) does
not surface any typed failure: the total function returns the plain
empty list — exactly the ordinary value of a successful filter whose
range happens to contain no record — whereas the spec-modelled variant
returns an error; the same store then answers a well-ordered range
normally. -/
theorem c8_counterexample :
    ¬ DateTime.le ⟨2023, 4, 20, 0, 0, 0⟩ ⟨2023, 4, 19, 0, 0, 0⟩ ∧
    (LogAnalyzer.mk [mkE "1.1.1.1" "/a" 200 19 0]).filter_by_date_range
        ⟨2023, 4, 20, 0, 0, 0⟩ ⟨2023, 4, 19, 0, 0, 0⟩ = [] ∧
    specFilterByDateRange (LogAnalyzer.mk [mkE "1.1.1.1" "/a" 200 19 0])
        ⟨2023, 4, 20, 0, 0, 0⟩ ⟨2023, 4, 19, 0, 0, 0⟩ =
      .error "invalid date range: start_date > end_date" ∧
    (LogAnalyzer.mk [mkE "1.1.1.1" "/a" 200 19 0]).filter_by_date_range
        ⟨2023, 4, 19, 0, 0, 0⟩ ⟨2023, 4, 21, 0, 0, 0⟩ =
      [mkE "1.1.1.1" "/a" 200 19 0] :=
  ⟨by decide, by decide, rfl, by decide⟩

/-- C8 (amended): an inverted date range (start strictly greater than
end) is not signalled at all: `filter_by_date_range` is total and
returns the empty list, since no timestamp can lie in the range; the
source store is not modified by the call (all operations here are pure
functions of `log_entries`), so every other operation still applies. -/
theorem c8_amended_inverted_range_yields_empty (a : LogAnalyzer)
    (s e : DateTime) (h : ¬ DateTime.le s e) :
    a.filter_by_date_range s e = [] := by
  unfold LogAnalyzer.filter_by_date_range
  rw [List.filter_eq_nil_iff]
  intro x _ hx
  rw [decide_eq_true_eq] at hx
  obtain ⟨h1, h2⟩ := hx
  unfold DateTime.le at h1 h2 h
  omega

/-- C8 witness: the amended theorem evaluated on a concrete store and a
concrete inverted range. -/
theorem c8_amended_witness :
    ¬ DateTime.le ⟨2023, 4, 20, 0, 0, 0⟩ ⟨2023, 4, 19, 0, 0, 0⟩ ∧
    (LogAnalyzer.mk [mkE "1.1.1.1" "/a" 200 19 0]).filter_by_date_range
        ⟨2023, 4, 20, 0, 0, 0⟩ ⟨2023, 4, 19, 0, 0, 0⟩ = [] :=
  ⟨by decide,
   c8_amended_inverted_range_yields_empty (LogAnalyzer.mk [mkE "1.1.1.1" "/a" 200 19 0])
     ⟨2023, 4, 20, 0, 0, 0⟩ ⟨2023, 4, 19, 0, 0, 0⟩ (by decide)⟩

/-- C1: the combined (extended) grammar is tried before the common
(basic) one: on any line that both grammars match, `parse_log_line`
returns the extended-format interpretation, whose referer and user
agent come from the trailing quoted captures (normalising `"-"` to
absent) instead of being discarded. -/
theorem c1_extended_grammar_takes_precedence (line : String)
    (ip ts m p st sz ref ua : String) (t : DateTime)
    (hcomb : reMatch COMBINED_LOG_PATTERN line =
      some [ip, ts, m, p, st, sz, ref, ua])
    (hcommon : (reMatch COMMON_LOG_PATTERN line).isSome = true)
    (ht : parse_timestamp ts = some t) :
    parse_log_line line =
      some { raw_log := line, timestamp := t, ip_address := ip, method := m,
             path := p, status_code := natOfDigits st,
             response_size := natOfDigits sz,
             referer := if ref = "-" then none else some ref,
             user_agent := if ua = "-" then none else some ua } := by
  unfold parse_log_line
  simp only [hcomb, ht]

/-- C1 witness: a concrete line matched by both grammars: the result
carries the trailing quoted referer and user agent. -/
theorem c1_witness :
    parse_log_line
        "10.0.0.1 - - [19/Apr/2023:13:55:36 +0000] \"GET /a HTTP/1.1\" 200 10 \"http://e.com\" \"Moz/5.0\"" =
      some { raw_log :=
               "10.0.0.1 - - [19/Apr/2023:13:55:36 +0000] \"GET /a HTTP/1.1\" 200 10 \"http://e.com\" \"Moz/5.0\"",
             timestamp := ⟨2023, 4, 19, 13, 55, 36⟩, ip_address := "10.0.0.1",
             method := "GET", path := "/a", status_code := 200,
             response_size := 10, referer := some "http://e.com",
             user_agent := some "Moz/5.0" } := by
  have h := c1_extended_grammar_takes_precedence
    "10.0.0.1 - - [19/Apr/2023:13:55:36 +0000] \"GET /a HTTP/1.1\" 200 10 \"http://e.com\" \"Moz/5.0\""
    "10.0.0.1" "19/Apr/2023:13:55:36 +0000" "GET" "/a" "200" "10"
    "http://e.com" "Moz/5.0" ⟨2023, 4, 19, 13, 55, 36⟩ rfl rfl rfl
  simpa using h

/-- C10: matching is anchored at the start of the line only: whenever
the combined grammar fails but the common grammar matches a prefix of
the line (its pattern has no end anchor, so any trailing text is
ignored), the line is accepted as a basic-format record built from the
common captures — trailing junk is silently discarded, not rejected. -/
theorem c10_prefix_match_accepts_trailing_junk (line : String)
    (ip ts m p st sz : String) (t : DateTime)
    (hcomb : reMatch COMBINED_LOG_PATTERN line = none)
    (hcommon : reMatch COMMON_LOG_PATTERN line = some [ip, ts, m, p, st, sz])
    (ht : parse_timestamp ts = some t) :
    parse_log_line line =
      some { raw_log := line, timestamp := t, ip_address := ip, method := m,
             path := p, status_code := natOfDigits st,
             response_size := natOfDigits sz } := by
  unfold parse_log_line
  simp only [hcomb, hcommon, ht]

/-- C10 witness: a line that is the sample basic line plus a single
unmatched quoted field (which the extended grammar cannot complete) is
accepted as a basic record; the trailing text appears in no field. -/
theorem c10_witness :
    parse_log_line
        "10.0.0.1 - - [19/Apr/2023:13:55:36 +0000] \"GET /a HTTP/1.1\" 200 10 \"only-one\"" =
      some { raw_log :=
               "10.0.0.1 - - [19/Apr/2023:13:55:36 +0000] \"GET /a HTTP/1.1\" 200 10 \"only-one\"",
             timestamp := ⟨2023, 4, 19, 13, 55, 36⟩, ip_address := "10.0.0.1",
             method := "GET", path := "/a", status_code := 200,
             response_size := 10, referer := none, user_agent := none } :=
  c10_prefix_match_accepts_trailing_junk
    "10.0.0.1 - - [19/Apr/2023:13:55:36 +0000] \"GET /a HTTP/1.1\" 200 10 \"only-one\""
    "10.0.0.1" "19/Apr/2023:13:55:36 +0000" "GET" "/a" "200" "10"
    ⟨2023, 4, 19, 13, 55, 36⟩ rfl rfl rfl

/-! ### Lemmas for the hourly distribution -/

theorem sum_map_add_distrib (f g : Nat → Nat) (l : List Nat) :
    (l.map fun h => f h + g h).sum = (l.map f).sum + (l.map g).sum := by
  induction l with
  | nil => simp
  | cons x xs ih => simp only [List.map_cons, List.sum_cons, ih]; omega

theorem sum_indicator_range (n x : Nat) (hx : x < n) :
    ((List.range n).map fun h => if x = h then 1 else 0).sum = 1 := by
  induction n with
  | zero => omega
  | succ n ih =>
    rw [List.range_succ, List.map_append, List.sum_append]
    by_cases hxn : x = n
    · subst hxn
      have hzero : ((List.range x).map fun h => if x = h then 1 else 0).sum = 0 := by
        apply List.sum_eq_zero
        intro v hv
        obtain ⟨h, hh, rfl⟩ := List.mem_map.mp hv
        have : h < x := List.mem_range.mp hh
        simp [show x ≠ h by omega]
      simp [hzero]
    · have hx' : x < n := by omega
      simp [ih hx', hxn]

theorem countP_hour_sum (l : List LogEntry) (n : Nat)
    (hn : ∀ e ∈ l, e.timestamp.hour < n) :
    ((List.range n).map fun h =>
        l.countP fun e => e.timestamp.hour == h).sum = l.length := by
  induction l with
  | nil => simp
  | cons e l ih =>
    have he : e.timestamp.hour < n := hn e (by simp)
    have ihl := ih fun e' he' => hn e' (List.mem_cons_of_mem _ he')
    simp only [List.countP_cons]
    rw [sum_map_add_distrib (fun h => l.countP fun e' => e'.timestamp.hour == h)
      (fun h => if (e.timestamp.hour == h) = true then 1 else 0), ihl]
    have : ((List.range n).map fun h =>
        if (e.timestamp.hour == h) = true then 1 else 0).sum = 1 := by
      simpa using sum_indicator_range n e.timestamp.hour he
    rw [this, List.length_cons]

/-- C4: for every record store whose timestamps carry a legal hour
field (`datetime` guarantees `hour ≤ 23` by construction), the hourly
distribution has exactly 24 entries, keyed by the hours 0 through 23 in
order (hence zero-filled for hours absent from the data), and the 24
counts sum to the total number of records. -/
theorem c4_hourly_distribution (a : LogAnalyzer)
    (h24 : ∀ e ∈ a.log_entries, e.timestamp.hour < 24) :
    (a.get_hourly_distribution).length = 24 ∧
    (a.get_hourly_distribution).map Prod.fst = List.range 24 ∧
    ((a.get_hourly_distribution).map Prod.snd).sum = a.log_entries.length := by
  refine ⟨by simp [LogAnalyzer.get_hourly_distribution], ?_, ?_⟩
  · simp [LogAnalyzer.get_hourly_distribution, List.map_map, Function.comp_def]
  · unfold LogAnalyzer.get_hourly_distribution
    rw [List.map_map]
    exact countP_hour_sum a.log_entries 24 h24

/-- C4 witness: a two-record store occupying only hour 3 still produces
all 24 buckets, in order, summing to 2. -/
theorem c4_witness :
    ((LogAnalyzer.mk [mkE "1.1.1.1" "/a" 200 19 3, mkE "2.2.2.2" "/b" 200 19 3]).get_hourly_distribution).length = 24 ∧
    ((LogAnalyzer.mk [mkE "1.1.1.1" "/a" 200 19 3, mkE "2.2.2.2" "/b" 200 19 3]).get_hourly_distribution).map Prod.fst = List.range 24 ∧
    (((LogAnalyzer.mk [mkE "1.1.1.1" "/a" 200 19 3, mkE "2.2.2.2" "/b" 200 19 3]).get_hourly_distribution).map Prod.snd).sum =
      (LogAnalyzer.mk [mkE "1.1.1.1" "/a" 200 19 3, mkE "2.2.2.2" "/b" 200 19 3]).log_entries.length :=
  c4_hourly_distribution
    (LogAnalyzer.mk [mkE "1.1.1.1" "/a" 200 19 3, mkE "2.2.2.2" "/b" 200 19 3])
    (by decide)

/-! ### Lemmas for `most_common` -/

theorem mostCommon_perm_of_le [DecidableEq α] (n : Nat)
    (items : List (α × Nat)) (h : items.length ≤ n) :
    (mostCommon n items).Perm items := by
  unfold mostCommon
  rw [List.take_of_length_le (by rw [List.length_insertionSort]; exact h)]
  exact List.perm_insertionSort _ _

theorem mostCommon_stable [DecidableEq α] (n : Nat)
    (items : List (α × Nat)) (h : items.length ≤ n) (x y : α × Nat)
    (hxy : countGE x y) (hs : [x, y].Sublist items) :
    [x, y].Sublist (mostCommon n items) := by
  unfold mostCommon
  rw [List.take_of_length_le (by rw [List.length_insertionSort]; exact h)]
  exact List.pair_sublist_insertionSort hxy hs

/-- C5: for `get_top_ips` and `get_top_paths`: requesting 0 results
yields the empty list; requesting at least as many results as there are
records yields every distinct key with its frequency (the result is a
permutation of the full insertion-ordered counter); and when two keys
tie on count, the one first encountered in store order (i.e. appearing
first in the insertion-ordered counter) is ranked first. -/
theorem c5_top_n (a : LogAnalyzer) (n : Nat) (x y : String × Nat)
    (hn : a.log_entries.length ≤ n) (hxy : x.2 = y.2) :
    a.get_top_ips 0 = [] ∧ a.get_top_paths 0 = [] ∧
    (a.get_top_ips n).Perm (counterItems (a.log_entries.map (·.ip_address))) ∧
    (a.get_top_paths n).Perm (counterItems (a.log_entries.map (·.path))) ∧
    ([x, y].Sublist (counterItems (a.log_entries.map (·.ip_address))) →
      [x, y].Sublist (a.get_top_ips n)) ∧
    ([x, y].Sublist (counterItems (a.log_entries.map (·.path))) →
      [x, y].Sublist (a.get_top_paths n)) := by
  have hlip : (counterItems (a.log_entries.map (·.ip_address))).length ≤ n :=
    calc (counterItems (a.log_entries.map (·.ip_address))).length
        ≤ (a.log_entries.map (·.ip_address)).length := counterItems_length_le _
      _ ≤ n := by simpa using hn
  have hlp : (counterItems (a.log_entries.map (·.path))).length ≤ n :=
    calc (counterItems (a.log_entries.map (·.path))).length
        ≤ (a.log_entries.map (·.path)).length := counterItems_length_le _
      _ ≤ n := by simpa using hn
  have hge : countGE x y := by unfold countGE; omega
  exact ⟨rfl, rfl, mostCommon_perm_of_le _ _ hlip, mostCommon_perm_of_le _ _ hlp,
    fun hs => mostCommon_stable _ _ hlip x y hge hs,
    fun hs => mostCommon_stable _ _ hlp x y hge hs⟩

/-- A four-record store with two IPs and two paths tied at two requests
each; `9.9.9.9` and `/p` are encountered first. -/
def tieStore : LogAnalyzer :=
  ⟨[mkE "9.9.9.9" "/p" 200 19 0, mkE "8.8.8.8" "/q" 200 19 1,
    mkE "9.9.9.9" "/p" 200 19 2, mkE "8.8.8.8" "/q" 200 19 3]⟩

/-- C5 witness: on `tieStore`, N = 0 gives `[]`; N = 4 lists both keys
with count 2, and the first-encountered key is ranked first for both
the IP and the path rankings. -/
theorem c5_witness :
    tieStore.get_top_ips 0 = [] ∧ tieStore.get_top_paths 0 = [] ∧
    (tieStore.get_top_ips 4).Perm [("9.9.9.9", 2), ("8.8.8.8", 2)] ∧
    [("9.9.9.9", 2), ("8.8.8.8", 2)].Sublist (tieStore.get_top_ips 4) ∧
    [("/p", 2), ("/q", 2)].Sublist (tieStore.get_top_paths 4) := by
  have h1 := c5_top_n tieStore 4 ("9.9.9.9", 2) ("8.8.8.8", 2)
    (by decide) (by decide)
  have h2 := c5_top_n tieStore 4 ("/p", 2) ("/q", 2) (by decide) (by decide)
  exact ⟨h1.1, h1.2.1, h1.2.2.1, h1.2.2.2.2.1 (by decide),
    h2.2.2.2.2.2 (by decide)⟩

/-! ### Lemmas for the excessive-404 detection -/

theorem ip404_count_eq (entries : List LogEntry) (ip : String) :
    ((entries.filter fun e => e.status_code == 404).map (·.ip_address)).count ip =
      entries.countP fun e => e.ip_address == ip && e.status_code == 404 := by
  rw [count_map_eq_countP, List.countP_filter]

theorem mem_excessive404 (entries : List LogEntry) (e : LogEntry) :
    e ∈ LogAnalyzer.excessive404Entries entries ↔
      e ∈ entries ∧ e.status_code = 404 ∧
        10 < entries.countP fun x =>
          x.ip_address == e.ip_address && x.status_code == 404 := by
  unfold LogAnalyzer.excessive404Entries LogAnalyzer.ip_404_counts
  rw [List.mem_flatMap]
  constructor
  · rintro ⟨⟨k, c⟩, hkc, he⟩
    rw [mem_counterItems] at hkc
    obtain ⟨hk, rfl⟩ := hkc
    split at he
    · next hc =>
      rw [List.mem_filter] at he
      obtain ⟨hee, hp⟩ := he
      simp only [Bool.and_eq_true, beq_iff_eq] at hp
      obtain ⟨hip, h404⟩ := hp
      subst hip
      refine ⟨hee, h404, ?_⟩
      rwa [ip404_count_eq] at hc
    · exact absurd he (List.not_mem_nil e)
  · rintro ⟨he, h404, hcnt⟩
    refine ⟨(e.ip_address,
      ((entries.filter fun x => x.status_code == 404).map (·.ip_address)).count
        e.ip_address), ?_, ?_⟩
    · rw [mem_counterItems]
      refine ⟨?_, rfl⟩
      rw [List.mem_map]
      exact ⟨e, List.mem_filter.mpr ⟨he, by simp [h404]⟩, rfl⟩
    · rw [if_pos (by rwa [ip404_count_eq])]
      exact List.mem_filter.mpr ⟨he, by simp [h404]⟩

/-- C6: a record belongs to the `excessive_404s` accumulation exactly
when it is a 404 record of the store whose client address has strictly
more than 10 records with status 404 — so a flagged address
contributes all of its 404 records; an address is flagged exactly when
its 404-count exceeds 10; and whenever some address exceeds the
threshold the `excessive_404s` category (with that full record list)
appears in the `detect_potential_attacks` result. -/
theorem c6_excessive_404s (entries : List LogEntry) (e : LogEntry) (ip : String) :
    (e ∈ LogAnalyzer.excessive404Entries entries ↔
      e ∈ entries ∧ e.status_code = 404 ∧
        10 < entries.countP fun x =>
          x.ip_address == e.ip_address && x.status_code == 404) ∧
    ((∃ x ∈ LogAnalyzer.excessive404Entries entries, x.ip_address = ip) ↔
      10 < entries.countP fun x =>
        x.ip_address == ip && x.status_code == 404) ∧
    (10 < entries.countP (fun x =>
        x.ip_address == ip && x.status_code == 404) →
      ("excessive_404s", LogAnalyzer.excessive404Entries entries) ∈
        (LogAnalyzer.mk entries).detect_potential_attacks) := by
  have haddr : (∃ x ∈ LogAnalyzer.excessive404Entries entries, x.ip_address = ip) ↔
      10 < entries.countP fun x => x.ip_address == ip && x.status_code == 404 := by
    constructor
    · rintro ⟨x, hx, rfl⟩
      exact ((mem_excessive404 entries x).mp hx).2.2
    · intro hcnt
      obtain ⟨w, hw, hpw⟩ := List.countP_pos_iff.mp
        (show 0 < entries.countP fun x =>
          x.ip_address == ip && x.status_code == 404 by omega)
      simp only [Bool.and_eq_true, beq_iff_eq] at hpw
      obtain ⟨hip, h404⟩ := hpw
      refine ⟨w, (mem_excessive404 entries w).mpr ⟨hw, h404, ?_⟩, hip⟩
      rwa [hip]
  refine ⟨mem_excessive404 entries e, haddr, ?_⟩
  intro hcnt
  obtain ⟨x, hx, -⟩ := haddr.mpr hcnt
  have hne : LogAnalyzer.excessive404Entries entries ≠ [] :=
    List.ne_nil_of_mem hx
  unfold LogAnalyzer.detect_potential_attacks
  rw [List.mem_filter]
  refine ⟨by simp, ?_⟩
  simp [List.isEmpty_iff, hne]

/-- An 11-record store: eleven 404 responses from the same address. -/
def elevenStore : LogAnalyzer :=
  ⟨(List.range 11).map fun k => mkE "6.6.6.6" "/missing" 404 19 (k % 24)⟩

/-- C6 witness: with exactly eleven 404 records from one IP, every one
of the eleven is in the excessive-404 accumulation, the address is
flagged, and the category is present in the attack report. -/
theorem c6_witness :
    (mkE "6.6.6.6" "/missing" 404 19 0 ∈
      LogAnalyzer.excessive404Entries elevenStore.log_entries) ∧
    (∃ x ∈ LogAnalyzer.excessive404Entries elevenStore.log_entries,
      x.ip_address = "6.6.6.6") ∧
    ("excessive_404s", LogAnalyzer.excessive404Entries elevenStore.log_entries) ∈
      (LogAnalyzer.mk elevenStore.log_entries).detect_potential_attacks := by
  have h := c6_excessive_404s elevenStore.log_entries
    (mkE "6.6.6.6" "/missing" 404 19 0) "6.6.6.6"
  exact ⟨h.1.mpr (by decide), h.2.1.mpr (by decide), h.2.2 (by decide)⟩

/-- C9 counterexample: on a store whose two records arrive in reverse
date order, the only dates present are 2023-04-19 and 2023-04-20 with
one record each, so output sorted by date ascending would have to be
`[("2023-04-19", 1), ("2023-04-20", 1)]`; `get_daily_distribution`
instead returns the keys in first-occurrence order — 2023-04-20
first. -/
theorem c9_counterexample :
    (LogAnalyzer.mk [mkE "1.1.1.1" "/a" 200 20 0,
        mkE "1.1.1.1" "/a" 200 19 0]).get_daily_distribution =
      [("2023-04-20", 1), ("2023-04-19", 1)] ∧
    (LogAnalyzer.mk [mkE "1.1.1.1" "/a" 200 20 0,
        mkE "1.1.1.1" "/a" 200 19 0]).get_daily_distribution ≠
      [("2023-04-19", 1), ("2023-04-20", 1)] :=
  ⟨by decide, by decide⟩

/-- C9 (amended): the daily distribution maps each calendar date
present in the data — and only those — to its record count; its keys
are distinct and appear in first-occurrence order of the dates in the
store, not sorted ascending (the CLI display layer sorts the items
separately before printing). -/
theorem c9_daily_distribution_amended (a : LogAnalyzer) (d : String) (c : Nat) :
    ((a.get_daily_distribution).map Prod.fst).Nodup ∧
    ((a.get_daily_distribution).map Prod.fst =
      orderedKeys (a.log_entries.map fun e => e.timestamp.isoDate)) ∧
    (d ∈ (a.get_daily_distribution).map Prod.fst ↔
      ∃ e ∈ a.log_entries, e.timestamp.isoDate = d) ∧
    ((d, c) ∈ a.get_daily_distribution ↔
      (∃ e ∈ a.log_entries, e.timestamp.isoDate = d) ∧
        c = a.log_entries.countP fun e => e.timestamp.isoDate == d) := by
  have hfst : (a.get_daily_distribution).map Prod.fst =
      orderedKeys (a.log_entries.map fun e => e.timestamp.isoDate) := by
    unfold LogAnalyzer.get_daily_distribution counterItems
    rw [List.map_map]
    simp [Function.comp_def]
  refine ⟨?_, hfst, ?_, ?_⟩
  · rw [hfst]; exact nodup_orderedKeys _
  · rw [hfst, mem_orderedKeys, List.mem_map]
  · unfold LogAnalyzer.get_daily_distribution
    rw [mem_counterItems, count_map_eq_countP, List.mem_map]
